import Mathlib

/-!
A verification development for the `pnocera/gomem` repository: a shallow
embedding, in Lean, of the Go data model and operations of the memory
pipeline (provider configuration decode/validate, the SQLite history
store, the ingress service `Add`, and the pipeline stage workers),
together with theorems settling the behavioural claims of the
specification against that embedding.

Modelling conventions, used throughout:
* JSON documents are modelled by the inductive `Json` below; numbers are
  modelled as `Int` (no claim here depends on fractional values).
* Go `string` is Lean `String`; Go machine integers are `Nat`/`Int`.
* Go `nil` slices and empty slices are identified (both are modelled by
  `[]`); likewise a `nil` map and an empty map of a `map[string]any`
  field are identified where JSON cannot distinguish them, except where
  a claim hinges on the distinction (the history store keeps the
  `nil`-map / empty-map distinction via `Option`, because encoding/json
  marshals a nil map to the literal `null`).
* Fallible Go functions returning `error` are modelled with
  `Except String` (the `String` is the `err.Error()` text, reproduced
  from the `fmt.Errorf` format strings of the source).
* `float32` embedding vectors are modelled as `List Int`: the only
  embedding value any claim mentions is the exact dummy vector
  `[0.0, 0.0, 0.0]`.
* The go-playground `validator` library is an external dependency; its
  tag semantics (`required`, `oneof`, `min`, `dive`, `url|hostname_port`)
  are modelled field-by-field following its documented behaviour, with
  `url|hostname_port` approximated by `isValidUrlOrHostPort`.
-/

set_option autoImplicit false

namespace Gomem

/-- A JSON value. Numbers are modelled as `Int`. -/
inductive Json where
  | null
  | bool (b : Bool)
  | num (n : Int)
  | str (s : String)
  | arr (xs : List Json)
  | obj (fields : List (String × Json))

/-- Field lookup in a JSON object body (first match wins, as in Go's
`encoding/json`, whose decoder keeps the last duplicate; encoded objects
in this development never repeat a key, so the two agree). -/
def jget : List (String × Json) → String → Option Json
  | [], _ => none
  | (k, v) :: fs, key => if k = key then some v else jget fs key

/-- The word used by `encoding/json` error messages for a value's kind. -/
def jsonTypeName : Json → String
  | .null => "null"
  | .bool _ => "bool"
  | .num _ => "number"
  | .str _ => "string"
  | .arr _ => "array"
  | .obj _ => "object"

/-- Tests whether the first character list starts with the second. -/
def charsStartWith : List Char → List Char → Bool
  | _, [] => true
  | [], _ :: _ => false
  | a :: as, b :: bs => a = b && charsStartWith as bs

/-- Tests whether `pat` occurs as a contiguous segment of `s`. -/
def charsContain (s pat : List Char) : Bool :=
  match s with
  | [] => charsStartWith [] pat
  | _ :: cs => charsStartWith s pat || charsContain cs pat

/-- Tests whether `pat` occurs as a contiguous substring of `s`. -/
def strContains (s pat : String) : Bool :=
  charsContain s.toList pat.toList

/-- Read a string-typed struct field out of a decoded JSON object body,
with Go `encoding/json` semantics: an absent key or a JSON `null` leaves
the zero value `""`; a value of any other kind is a type error whose
message follows `json: cannot unmarshal ... into Go struct field ...`.
`owner` is the Go struct name and `key` the JSON tag, used only in the
error text. -/
def jreadStr (owner key : String) : Option Json → Except String String
  | none => .ok ""
  | some .null => .ok ""
  | some (.str s) => .ok s
  | some v => .error ("json: cannot unmarshal " ++ jsonTypeName v ++
      " into Go struct field " ++ owner ++ "." ++ key ++ " of type string")

/-- Reads the string-typed field named `key` out of an object body. -/
def jgetStr (owner key : String) (fs : List (String × Json)) : Except String String :=
  jreadStr owner key (jget fs key)

/-- Read a bool-typed struct field, with the same conventions as `jgetStr`. -/
def jreadBool (owner key : String) : Option Json → Except String Bool
  | none => .ok false
  | some .null => .ok false
  | some (.bool b) => .ok b
  | some v => .error ("json: cannot unmarshal " ++ jsonTypeName v ++
      " into Go struct field " ++ owner ++ "." ++ key ++ " of type bool")

/-- Reads the bool-typed field named `key` out of an object body. -/
def jgetBool (owner key : String) (fs : List (String × Json)) : Except String Bool :=
  jreadBool owner key (jget fs key)

/-- Prefix an error message, modelling `fmt.Errorf("...: %w", err)`. -/
def wrapErr {α : Type} (pfx : String) : Except String α → Except String α
  | .ok a => .ok a
  | .error e => .error (pfx ++ e)

/-- Model of `json.Unmarshal(raw, &target)` where `raw` is a
`json.RawMessage` that may be `nil` (the JSON key was absent):
unmarshalling nil bytes fails with `unexpected end of JSON input`. -/
def goUnmarshalRaw {α : Type} (raw : Option Json) (f : Json → Except String α) :
    Except String α :=
  match raw with
  | none => .error "unexpected end of JSON input"
  | some j => f j

/-! ## Package `graphs`: provider configuration for the graph store
(source: `GraphStoreConfig`, `Neo4jConfig`, `MemgraphConfig` with their
`UnmarshalJSON`/`Validate` methods). -/

/-- Model of `graphs.Neo4jConfig`. -/
structure Neo4jConfig where
  url : String
  username : String
  password : String
  database : String
  baseLabel : Bool
deriving DecidableEq

/-- Model of `graphs.MemgraphConfig`. -/
structure MemgraphConfig where
  url : String
  username : String
  password : String
deriving DecidableEq

/-- The dynamic value held by the `interface{}`-typed `Config` field of
`GraphStoreConfig`. `other` stands for a value of any further runtime
type, identified by the name `%T` would print for it (such a value can
only arise from programmatic construction; decode never produces it).
Field-level validator tags of `other` values are not modelled. -/
inductive GConfigVal where
  | neo4j (c : Neo4jConfig)
  | memgraph (c : MemgraphConfig)
  | other (typeName : String)
deriving DecidableEq

/-- Computes the `%T` name of the `Config` interface value (`<nil>` for nil). -/
def gTypeName : Option GConfigVal → String
  | none => "<nil>"
  | some (.neo4j _) => "*graphs.Neo4jConfig"
  | some (.memgraph _) => "*graphs.MemgraphConfig"
  | some (.other t) => t

/-- Model of `graphs.GraphStoreConfig` (the `LLM` placeholder field is unused by
every operation and is omitted). `config = none` models a nil interface. -/
structure GraphStoreConfig where
  provider : String
  config : Option GConfigVal
  customPrompt : String
deriving DecidableEq

/-- Decode a JSON object body into `graphs.Neo4jConfig`
(`json.Unmarshal` semantics: absent/null fields keep zero values; a
non-object document other than `null` is a type error). -/
def neo4jConfigOfJson : Json → Except String Neo4jConfig
  | .null => .ok ⟨"", "", "", "", false⟩
  | .obj fs => do
      let url ← jgetStr "Neo4jConfig" "url" fs
      let username ← jgetStr "Neo4jConfig" "username" fs
      let password ← jgetStr "Neo4jConfig" "password" fs
      let database ← jgetStr "Neo4jConfig" "database" fs
      let baseLabel ← jgetBool "Neo4jConfig" "base_label" fs
      .ok ⟨url, username, password, database, baseLabel⟩
  | v => .error ("json: cannot unmarshal " ++ jsonTypeName v ++
      " into Go value of type graphs.Neo4jConfig")

/-- Decode a JSON object body into `graphs.MemgraphConfig`. -/
def memgraphConfigOfJson : Json → Except String MemgraphConfig
  | .null => .ok ⟨"", "", ""⟩
  | .obj fs => do
      let url ← jgetStr "MemgraphConfig" "url" fs
      let username ← jgetStr "MemgraphConfig" "username" fs
      let password ← jgetStr "MemgraphConfig" "password" fs
      .ok ⟨url, username, password⟩
  | v => .error ("json: cannot unmarshal " ++ jsonTypeName v ++
      " into Go value of type graphs.MemgraphConfig")

/-- Model of `graphs.GraphStoreConfig.UnmarshalJSON`, on an already-tokenised
top-level JSON object. The auxiliary struct captures `config` as a
`json.RawMessage`, which is nil exactly when the key is absent. -/
def GraphStoreConfig.unmarshalJSON (data : Json) : Except String GraphStoreConfig :=
  match data with
  | .obj fs => do
      let provider ← jgetStr "GraphStoreConfig" "provider" fs
      let customPrompt ← jgetStr "GraphStoreConfig" "custom_prompt" fs
      let rawConfig : Option Json := jget fs "config"
      match provider with
      | "neo4j" => do
          let c ← wrapErr "failed to unmarshal neo4j config: "
            (goUnmarshalRaw rawConfig neo4jConfigOfJson)
          .ok ⟨provider, some (.neo4j c), customPrompt⟩
      | "memgraph" => do
          let c ← wrapErr "failed to unmarshal memgraph config: "
            (goUnmarshalRaw rawConfig memgraphConfigOfJson)
          .ok ⟨provider, some (.memgraph c), customPrompt⟩
      | _ => .error ("unknown graph store provider: " ++ provider)
  | .null => .ok ⟨"", none, ""⟩
  | v => .error ("json: cannot unmarshal " ++ jsonTypeName v ++
      " into Go value of type graphs.GraphStoreConfig")

/-- Field-level validator pass on `graphs.Neo4jConfig` (`required` on
url/username/password), with the error-key prefix of the enclosing
struct walk. -/
def neo4jFieldValidate (keyPfx : String) (c : Neo4jConfig) : Except String Unit :=
  if c.url = "" then
    .error ("Key: '" ++ keyPfx ++ ".URL' Error:Field validation for 'URL' failed on the 'required' tag")
  else if c.username = "" then
    .error ("Key: '" ++ keyPfx ++ ".Username' Error:Field validation for 'Username' failed on the 'required' tag")
  else if c.password = "" then
    .error ("Key: '" ++ keyPfx ++ ".Password' Error:Field validation for 'Password' failed on the 'required' tag")
  else .ok ()

/-- Field-level validator pass on `graphs.MemgraphConfig`. -/
def memgraphFieldValidate (keyPfx : String) (c : MemgraphConfig) : Except String Unit :=
  if c.url = "" then
    .error ("Key: '" ++ keyPfx ++ ".URL' Error:Field validation for 'URL' failed on the 'required' tag")
  else if c.username = "" then
    .error ("Key: '" ++ keyPfx ++ ".Username' Error:Field validation for 'Username' failed on the 'required' tag")
  else if c.password = "" then
    .error ("Key: '" ++ keyPfx ++ ".Password' Error:Field validation for 'Password' failed on the 'required' tag")
  else .ok ()

/-- Model of `validate.Struct` on `graphs.GraphStoreConfig`: `Provider` carries
`required,oneof=neo4j memgraph`; the untagged `Config` interface is
dived into when it holds one of the two known config structs. -/
def graphStoreStructValidate (c : GraphStoreConfig) : Except String Unit :=
  if c.provider = "" then
    .error "Key: 'GraphStoreConfig.Provider' Error:Field validation for 'Provider' failed on the 'required' tag"
  else if c.provider ≠ "neo4j" ∧ c.provider ≠ "memgraph" then
    .error "Key: 'GraphStoreConfig.Provider' Error:Field validation for 'Provider' failed on the 'oneof' tag"
  else
    match c.config with
    | some (.neo4j n) => neo4jFieldValidate "GraphStoreConfig.Config" n
    | some (.memgraph m) => memgraphFieldValidate "GraphStoreConfig.Config" m
    | _ => .ok ()

/-- Model of `graphs.GraphStoreConfig.Validate`: the struct-tag pass followed by
the provider/config type-agreement switch. -/
def GraphStoreConfig.Validate (c : GraphStoreConfig) : Except String Unit := do
  graphStoreStructValidate c
  match c.provider with
  | "neo4j" =>
      match c.config with
      | some (.neo4j _) => .ok ()
      | cfg => .error ("config for provider 'neo4j' must be of type *Neo4jConfig, got " ++ gTypeName cfg)
  | "memgraph" =>
      match c.config with
      | some (.memgraph _) => .ok ()
      | cfg => .error ("config for provider 'memgraph' must be of type *MemgraphConfig, got " ++ gTypeName cfg)
  | p => .error ("provider '" ++ p ++ "' is valid but has an unexpected config type: " ++ gTypeName c.config)

/-! ## Package `vectorstores`: provider configuration for the vector
store (source: `QdrantConfig`, `VectorStoreConfig` with their
`UnmarshalJSON`/`Validate` methods). -/

/-- Model of `vectorstores.QdrantConfig`. -/
structure QdrantConfig where
  address : String
  apiKey : String
  collectionName : String
deriving DecidableEq

/-- Splits a character list on a separator character. -/
def splitChar (sep : Char) : List Char → List (List Char)
  | [] => [[]]
  | c :: rest =>
      match splitChar sep rest with
      | [] => [[]]
      | r :: rs => if c = sep then [] :: r :: rs else (c :: r) :: rs

/-- Modelled approximation of the go-playground validator's
`url|hostname_port` tag (the external validation library is not part of
this repository): a string passes when it carries a URL scheme
separator and no space, or when it has `host:port` shape with a
non-empty host of hostname characters and a numeric port. -/
def isValidUrlOrHostPort (s : String) : Bool :=
  (strContains s "://" && !s.toList.contains ' ') ||
    (match splitChar ':' s.toList with
     | [h, p] =>
         !h.isEmpty && !p.isEmpty && p.all Char.isDigit &&
           h.all (fun c => c.isAlphanum || c = '-' || c = '.')
     | _ => false)

/-- Field-level validator pass on `vectorstores.QdrantConfig`:
`Address` carries `required,url|hostname_port`, `CollectionName`
carries `required`. `keyPfx` is the error-key prefix of the struct walk
(`QdrantConfig` when validated directly, `VectorStoreConfig.Config`
when reached by diving). -/
def qdrantFieldValidate (keyPfx : String) (c : QdrantConfig) : Except String Unit :=
  if c.address = "" then
    .error ("Key: '" ++ keyPfx ++ ".Address' Error:Field validation for 'Address' failed on the 'required' tag")
  else if ¬ isValidUrlOrHostPort c.address then
    .error ("Key: '" ++ keyPfx ++ ".Address' Error:Field validation for 'Address' failed on the 'url|hostname_port' tag")
  else if c.collectionName = "" then
    .error ("Key: '" ++ keyPfx ++ ".CollectionName' Error:Field validation for 'CollectionName' failed on the 'required' tag")
  else .ok ()

/-- Model of `vectorstores.QdrantConfig.Validate`. -/
def QdrantConfig.Validate (c : QdrantConfig) : Except String Unit :=
  qdrantFieldValidate "QdrantConfig" c

/-- The dynamic value held by the `interface{}`-typed `Config` field of
`VectorStoreConfig`: a `*QdrantConfig`, the raw `json.RawMessage`
stored by `UnmarshalJSON` when the provider key was absent, or a value
of any other runtime type identified by its `%T` name (programmatic
construction only). Field-level validator tags of `other` values are
not modelled. -/
inductive VConfigVal where
  | qdrant (c : QdrantConfig)
  | raw (j : Json)
  | other (typeName : String)

/-- Computes the `%T` name of the vector-store `Config` interface value. -/
def vTypeName : Option VConfigVal → String
  | none => "<nil>"
  | some (.qdrant _) => "*vectorstores.QdrantConfig"
  | some (.raw _) => "json.RawMessage"
  | some (.other t) => t

/-- Model of `vectorstores.VectorStoreConfig`. `config = none` models a
nil interface. -/
structure VectorStoreConfig where
  provider : String
  config : Option VConfigVal

/-- Decode a JSON object body into `vectorstores.QdrantConfig`. -/
def qdrantConfigOfJson : Json → Except String QdrantConfig
  | .null => .ok ⟨"", "", ""⟩
  | .obj fs => do
      let address ← jgetStr "QdrantConfig" "address" fs
      let apiKey ← jgetStr "QdrantConfig" "api_key" fs
      let collectionName ← jgetStr "QdrantConfig" "collection_name" fs
      .ok ⟨address, apiKey, collectionName⟩
  | v => .error ("json: cannot unmarshal " ++ jsonTypeName v ++
      " into Go value of type vectorstores.QdrantConfig")

/-- Model of `vectorstores.VectorStoreConfig.UnmarshalJSON`, on an
already-tokenised top-level JSON object: the auxiliary struct captures
`provider` as a string (zero value `""` when absent) and `config` as a
`json.RawMessage` (nil exactly when the key is absent). -/
def VectorStoreConfig.unmarshalJSON (data : Json) : Except String VectorStoreConfig :=
  match data with
  | .obj fs => do
      let provider ← jgetStr "VSCProvider" "provider" fs
      match jget fs "config" with
      | none =>
          if provider ≠ "" then
            .error ("config field is missing for provider " ++ provider)
          else
            .ok ⟨provider, none⟩
      | some rawConfig =>
          match provider with
          | "qdrant" => do
              let q ← wrapErr "error unmarshalling qdrant config: "
                (qdrantConfigOfJson rawConfig)
              .ok ⟨provider, some (.qdrant q)⟩
          | _ =>
              if provider ≠ "" then
                .error ("unsupported vector store provider: " ++ provider)
              else
                .ok ⟨provider, some (.raw rawConfig)⟩
  | .null => .ok ⟨"", none⟩
  | v => .error ("json: cannot unmarshal " ++ jsonTypeName v ++
      " into Go value of type vectorstores.VectorStoreConfig")

/-- Model of `validate.Struct` on `vectorstores.VectorStoreConfig`:
`Provider` carries `required,oneof=qdrant`, `Config` carries `required`
(nil interface fails), and the validator dives into a held
`*QdrantConfig`. -/
def vectorStoreStructValidate (c : VectorStoreConfig) : Except String Unit :=
  if c.provider = "" then
    .error "Key: 'VectorStoreConfig.Provider' Error:Field validation for 'Provider' failed on the 'required' tag"
  else if c.provider ≠ "qdrant" then
    .error "Key: 'VectorStoreConfig.Provider' Error:Field validation for 'Provider' failed on the 'oneof' tag"
  else
    match c.config with
    | none =>
        .error "Key: 'VectorStoreConfig.Config' Error:Field validation for 'Config' failed on the 'required' tag"
    | some (.qdrant q) => qdrantFieldValidate "VectorStoreConfig.Config" q
    | some _ => .ok ()

/-- Model of `vectorstores.VectorStoreConfig.Validate`: the struct-tag
pass followed by the provider/config type switch. -/
def VectorStoreConfig.Validate (c : VectorStoreConfig) : Except String Unit := do
  vectorStoreStructValidate c
  match c.config with
  | some (.qdrant q) =>
      if c.provider ≠ "qdrant" then
        .error ("provider is '" ++ c.provider ++ "' but config type is *QdrantConfig")
      else
        QdrantConfig.Validate q
  | cfg =>
      if c.provider = "qdrant" then
        .error ("config for provider '" ++ c.provider ++ "' is of unexpected type " ++ vTypeName cfg)
      else
        .error ("unknown config type (" ++ vTypeName cfg ++ ") for provider '" ++ c.provider ++ "'")

/-! ## Package `memory`: request/data types (source: `types.go`) and the
validator semantics of their tags. -/

/-- Model of `memory.BaseRequestInfo`. The `Metadata` map is modelled
as an association list of JSON values; a nil map and an empty map are
identified (both marshal to an omitted field). -/
structure BaseRequestInfo where
  userId : String
  agentId : String
  runId : String
  actorId : String
  metadata : List (String × Json)

/-- Model of `memory.Message`. -/
structure Message where
  role : String
  content : String
  name : String
deriving DecidableEq

/-- Model of `memory.AddMemoryRequest`. -/
structure AddMemoryRequest where
  base : BaseRequestInfo
  messages : List Message
  infer : Bool
  memoryType : String
  prompt : String

/-- Validator pass on one `Message` of the `dive` walk of
`AddMemoryRequest.Validate` (`Role` carries
`required,oneof=user assistant system`, `Content` carries `required`).
`keyPfx` is the error-key prefix, e.g. `AddMemoryRequest.Messages[0]`. -/
def messageFieldValidate (keyPfx : String) (m : Message) : Except String Unit :=
  if m.role = "" then
    .error ("Key: '" ++ keyPfx ++ ".Role' Error:Field validation for 'Role' failed on the 'required' tag")
  else if m.role ≠ "user" ∧ m.role ≠ "assistant" ∧ m.role ≠ "system" then
    .error ("Key: '" ++ keyPfx ++ ".Role' Error:Field validation for 'Role' failed on the 'oneof' tag")
  else if m.content = "" then
    .error ("Key: '" ++ keyPfx ++ ".Content' Error:Field validation for 'Content' failed on the 'required' tag")
  else .ok ()

/-- The `dive` walk over the message slice, indexing the error keys. -/
def messagesDiveValidate (i : Nat) : List Message → Except String Unit
  | [] => .ok ()
  | m :: ms => do
      messageFieldValidate ("AddMemoryRequest.Messages[" ++ toString i ++ "]") m
      messagesDiveValidate (i + 1) ms

/-- Model of `memory.AddMemoryRequest.Validate` (`Messages` carries
`required,min=1,dive`; a nil and an empty slice both fail before the
dive, reported here with the `min` tag). -/
def AddMemoryRequest.Validate (r : AddMemoryRequest) : Except String Unit :=
  if r.messages = [] then
    .error "Key: 'AddMemoryRequest.Messages' Error:Field validation for 'Messages' failed on the 'min' tag"
  else
    messagesDiveValidate 0 r.messages

/-- The well-formedness the specification ascribes to an
`AddMemoryRequest`: at least one message, each with a role in
`{user, assistant, system}` and non-empty content. -/
def WellFormedAddRequest (r : AddMemoryRequest) : Prop :=
  r.messages ≠ [] ∧ ∀ m ∈ r.messages,
    (m.role = "user" ∨ m.role = "assistant" ∨ m.role = "system") ∧ m.content ≠ ""

instance (r : AddMemoryRequest) : Decidable (WellFormedAddRequest r) := by
  unfold WellFormedAddRequest; infer_instance

/-! JSON marshalling of `AddMemoryRequest` (the tags of `types.go`):
`user_id`/`agent_id`/`run_id`/`actor_id`/`metadata`/`name`/
`memory_type`/`prompt` are `omitempty`; `messages`, `role`, `content`
and `infer` are always emitted. -/

/-- Emit an `omitempty` string field. -/
def optStrField (k v : String) : List (String × Json) :=
  if v = "" then [] else [(k, Json.str v)]

/-- Emit the `omitempty` metadata field. -/
def optMetaField : List (String × Json) → List (String × Json)
  | [] => []
  | m => [("metadata", Json.obj m)]

/-- Model of `json.Marshal` on `memory.Message`. -/
def encodeMessage (m : Message) : Json :=
  .obj ([("role", .str m.role), ("content", .str m.content)] ++ optStrField "name" m.name)

/-- Model of `json.Marshal` on `memory.AddMemoryRequest` (the embedded
`BaseRequestInfo` fields are flattened into the same object, as Go
embedding does). -/
def encodeAddMemoryRequest (r : AddMemoryRequest) : Json :=
  .obj (optStrField "user_id" r.base.userId ++
        optStrField "agent_id" r.base.agentId ++
        optStrField "run_id" r.base.runId ++
        optStrField "actor_id" r.base.actorId ++
        optMetaField r.base.metadata ++
        [("messages", .arr (r.messages.map encodeMessage)),
         ("infer", .bool r.infer)] ++
        optStrField "memory_type" r.memoryType ++
        optStrField "prompt" r.prompt)

/-- Model of `json.Unmarshal` into `memory.Message`. -/
def decodeMessage : Json → Except String Message
  | .null => .ok ⟨"", "", ""⟩
  | .obj fs => do
      let role ← jgetStr "Message" "role" fs
      let content ← jgetStr "Message" "content" fs
      let name ← jgetStr "Message" "name" fs
      .ok ⟨role, content, name⟩
  | v => .error ("json: cannot unmarshal " ++ jsonTypeName v ++
      " into Go value of type memory.Message")

/-- Read the `metadata` map field (absent/null gives the empty map,
identified with Go's nil map). -/
def jreadMeta : Option Json → Except String (List (String × Json))
  | none => .ok []
  | some .null => .ok []
  | some (.obj m) => .ok m
  | some v => .error ("json: cannot unmarshal " ++ jsonTypeName v ++
      " into Go struct field BaseRequestInfo.metadata of type map[string]interface \x7b\x7d")

/-- Reads the `metadata` map field out of an object body. -/
def jgetMeta (fs : List (String × Json)) : Except String (List (String × Json)) :=
  jreadMeta (jget fs "metadata")

/-- Read the `messages` slice field (absent/null gives the empty slice,
identified with Go's nil slice). -/
def decodeMessageList : List Json → Except String (List Message)
  | [] => .ok []
  | j :: js => do
      let m ← decodeMessage j
      let rest ← decodeMessageList js
      .ok (m :: rest)

/-- Reads the `messages` slice field out of an object body. -/
def jgetMessages (fs : List (String × Json)) : Except String (List Message) :=
  match jget fs "messages" with
  | none => .ok []
  | some .null => .ok []
  | some (.arr xs) => decodeMessageList xs
  | some v => .error ("json: cannot unmarshal " ++ jsonTypeName v ++
      " into Go struct field AddMemoryRequest.messages of type []memory.Message")

/-- Model of `json.Unmarshal` into `memory.AddMemoryRequest`. -/
def decodeAddMemoryRequest : Json → Except String AddMemoryRequest
  | .null => .ok ⟨⟨"", "", "", "", []⟩, [], false, "", ""⟩
  | .obj fs => do
      let userId ← jgetStr "BaseRequestInfo" "user_id" fs
      let agentId ← jgetStr "BaseRequestInfo" "agent_id" fs
      let runId ← jgetStr "BaseRequestInfo" "run_id" fs
      let actorId ← jgetStr "BaseRequestInfo" "actor_id" fs
      let metadata ← jgetMeta fs
      let messages ← jgetMessages fs
      let infer ← jgetBool "AddMemoryRequest" "infer" fs
      let memoryType ← jgetStr "AddMemoryRequest" "memory_type" fs
      let prompt ← jgetStr "AddMemoryRequest" "prompt" fs
      .ok ⟨⟨userId, agentId, runId, actorId, metadata⟩, messages, infer, memoryType, prompt⟩
  | v => .error ("json: cannot unmarshal " ++ jsonTypeName v ++
      " into Go value of type memory.AddMemoryRequest")

/-! ## Package `memory`: service configuration (source: `config.go`)
and the ingress service (source: `memoryServiceImpl.Add`). -/

/-- Model of `memory.Config` (the fields consumed by the operations
embedded here; the remaining topic strings are carried for
completeness). -/
structure Config where
  natsAddress : String
  openAIAPIKey : String
  topicMemoryAddReceived : String
  topicMemoryProcess : String
  topicMemoryEmbed : String
  topicMemoryVectorStoreAdd : String
  topicMemoryGraphStoreAdd : String
  topicMemoryHistoryLog : String
  topicMemorySearch : String
  topicMemoryGet : String
  topicMemoryUpdate : String
  topicMemoryDelete : String
  enableGraphStore : Bool
  enableInfer : Bool
  vectorStoreConfig : Option VectorStoreConfig
  customFactExtractionPrompt : String

/-- A message handed to `NATSClient.Publish`: destination topic and the
marshalled JSON payload. -/
structure PublishRecord where
  topic : String
  payload : Json

/-- Model of `memoryServiceImpl.Add`. Effects and environment are made
explicit: `ncNil` is whether the service's NATS client is nil,
`publishErr` the outcome the transport would return for the publish
call, and `memoryID` the string minted by `uuid.New().String()` (always
a 36-character hyphenated string, hence non-empty). The first component
of the result lists the messages successfully handed to the transport;
the second is `Add`'s `(string, error)` return. -/
def memoryServiceAdd (cfg : Config) (ncNil : Bool) (publishErr : Option String)
    (memoryID : String) (req : AddMemoryRequest) :
    List PublishRecord × Except String String :=
  match AddMemoryRequest.Validate req with
  | .error e => ([], .error ("invalid AddMemoryRequest: " ++ e))
  | .ok () =>
      let jsonData := encodeAddMemoryRequest req
      if ncNil then
        ([], .ok memoryID)
      else
        match publishErr with
        | some e =>
            ([], .error ("failed to publish to NATS topic " ++
              cfg.topicMemoryAddReceived ++ ": " ++ e))
        | none =>
            ([⟨cfg.topicMemoryAddReceived, jsonData⟩], .ok memoryID)

/-! ## Package `memory`: the SQLite history store
(source: `history_store.go`).

The store is embedded as explicit state: the list of table rows in
insertion order, whether the `history` table exists, whether the store
is closed, and whether the store's `sync.RWMutex` write lock is held.
The mutex is **not reentrant**: an operation that tries to acquire it
while it is already held blocks forever. Operations therefore return
`Option` — `none` means the call never returns (deadlock); `some`
carries the new state and the Go return value. -/

/-- The text stored in the `details` column, characterised by how
`json.Unmarshal` treats it on read-back: SQL `NULL`; the empty string;
the JSON literal `null` (which is what `json.Marshal` produces for a
nil map, and which unmarshals as a no-op); a well-formed JSON object;
or text that fails to parse, carried with the parse error message it
produces. -/
inductive DetailsColumn where
  | sqlNull
  | emptyText
  | nullLiteral
  | objText (m : List (String × Json))
  | corruptText (errMsg : String)

/-- One row of the `history` table. Optional string columns are
`sql.NullString`s: `none` is SQL `NULL`. -/
structure HistoryRow where
  eventId : String
  memoryId : Option String
  eventType : String
  timestamp : Nat
  userId : Option String
  agentId : Option String
  runId : Option String
  actorId : Option String
  oldMemory : Option String
  newMemory : Option String
  searchQuery : Option String
  details : DetailsColumn

/-- Model of `memory.MemoryEvent`. `details = none` models a nil map
(a distinction `encoding/json` preserves on this field: a nil map
marshals to the literal `null`). Timestamps are modelled as `Nat`
(UTC instants totally ordered by `<`; `0` is Go's zero `time.Time`). -/
structure MemoryEvent where
  eventId : String
  memoryId : String
  eventType : String
  timestamp : Nat
  userId : String
  agentId : String
  runId : String
  actorId : String
  oldMemory : String
  newMemory : String
  searchQuery : String
  details : Option (List (String × Json))

/-- Go `sql.NullString{String: s, Valid: s != ""}`. -/
def nullStr (s : String) : Option String :=
  if s = "" then none else some s

/-- Model of `json.Marshal(event.Details)` written into the `details`
column: a nil map marshals to the literal `null`. -/
def marshalDetails : Option (List (String × Json)) → DetailsColumn
  | none => .nullLiteral
  | some m => .objText m

/-- State of a `memory.SQLiteHistoryStore`. -/
structure SQLiteHistoryStore where
  rows : List HistoryRow
  tableExists : Bool
  closed : Bool
  lockHeld : Bool

/-- Model of `SQLiteHistoryStore._createHistoryTable`: takes the write
lock, issues `CREATE TABLE IF NOT EXISTS` plus the two indexes,
releases the lock. Blocks forever (`none`) if the write lock is
already held. -/
def SQLiteHistoryStore.createHistoryTable (s : SQLiteHistoryStore) :
    Option (SQLiteHistoryStore × Except String Unit) :=
  if s.lockHeld then none
  else some ({ s with tableExists := true }, .ok ())

/-- The row `LogEvent` inserts for an event: the defaulting of
`EventID`/`Timestamp` from the call's `uuid.New()`/`time.Now()` draws,
the `sql.NullString` conversions, and the marshalled `details` blob. -/
def eventToRow (genId : String) (now : Nat) (e : MemoryEvent) : HistoryRow :=
  { eventId := if e.eventId = "" then genId else e.eventId
    memoryId := nullStr e.memoryId
    eventType := e.eventType
    timestamp := if e.timestamp = 0 then now else e.timestamp
    userId := nullStr e.userId
    agentId := nullStr e.agentId
    runId := nullStr e.runId
    actorId := nullStr e.actorId
    oldMemory := nullStr e.oldMemory
    newMemory := nullStr e.newMemory
    searchQuery := nullStr e.searchQuery
    details := marshalDetails e.details }

/-- Model of `SQLiteHistoryStore.LogEvent`. `genId` is the value
`uuid.New().String()` would mint for this call and `now` the value of
`time.Now().UTC()`; they are consumed only when the event arrives with
an empty `EventID` or a zero `Timestamp`. -/
def SQLiteHistoryStore.LogEvent (s : SQLiteHistoryStore) (genId : String) (now : Nat)
    (e : MemoryEvent) : Option (SQLiteHistoryStore × Except String Unit) :=
  if s.lockHeld then none
  else if s.closed then some (s, .error "SQLiteHistoryStore is closed")
  else if ¬ s.tableExists then
    some (s, .error "failed to prepare insert statement for history: no such table: history")
  else
    some ({ s with rows := s.rows ++ [eventToRow genId now e] }, .ok ())

/-- Rehydration of one scanned row into a `MemoryEvent`, following the
scan loop of `GetHistory`: `NullString` columns come back as their
`.String` (empty for `NULL`); a `NULL` or empty `details` column gives
a fresh empty map; a `details` blob that fails to unmarshal gives a map
with an `error` key; the literal `null` unmarshals as a no-op, leaving
the freshly allocated event's nil map in place. -/
def rehydrateRow (r : HistoryRow) : MemoryEvent :=
  { eventId := r.eventId
    memoryId := r.memoryId.getD ""
    eventType := r.eventType
    timestamp := r.timestamp
    userId := r.userId.getD ""
    agentId := r.agentId.getD ""
    runId := r.runId.getD ""
    actorId := r.actorId.getD ""
    oldMemory := r.oldMemory.getD ""
    newMemory := r.newMemory.getD ""
    searchQuery := r.searchQuery.getD ""
    details :=
      match r.details with
      | .sqlNull => some []
      | .emptyText => some []
      | .nullLiteral => none
      | .objText m => some m
      | .corruptText errMsg => some [("error", .str ("failed to unmarshal details: " ++ errMsg))] }

/-- Insertion step of the model of SQL `ORDER BY timestamp ASC`. -/
def insertByTs (r : HistoryRow) : List HistoryRow → List HistoryRow
  | [] => [r]
  | x :: xs => if r.timestamp < x.timestamp then r :: x :: xs else x :: insertByTs r xs

/-- Model of SQL `ORDER BY timestamp ASC` over the selected rows.
SQLite leaves the relative order of equal keys unspecified; this model
fixes one such order, and no claim below depends on tie order. -/
def orderByTs : List HistoryRow → List HistoryRow
  | [] => []
  | r :: rs => insertByTs r (orderByTs rs)

/-- Model of `SQLiteHistoryStore.GetHistory`: takes the read lock
(blocked while a writer holds the mutex), selects the rows whose
`memory_id` column equals the argument (a `NULL` column matches no
argument, `''` included), orders them by timestamp and rehydrates
them. A closed store has a nil `db` handle and the unguarded query
would dereference it, so no ordinary return is modelled (`none`). -/
def SQLiteHistoryStore.GetHistory (s : SQLiteHistoryStore) (memoryID : String) :
    Option (Except String (List MemoryEvent)) :=
  if s.lockHeld then none
  else if s.closed then none
  else if ¬ s.tableExists then
    some (.error ("failed to query history for memory_id " ++ memoryID ++
      ": no such table: history"))
  else
    some (.ok ((orderByTs (s.rows.filter (fun r => r.memoryId = some memoryID))).map rehydrateRow))

/-- Model of `SQLiteHistoryStore.Reset`: takes the write lock, drops
the `history` table, then calls `_createHistoryTable` — which tries to
take the same non-reentrant write lock again. -/
def SQLiteHistoryStore.Reset (s : SQLiteHistoryStore) :
    Option (SQLiteHistoryStore × Except String Unit) :=
  if s.lockHeld then none
  else
    let locked : SQLiteHistoryStore := { s with lockHeld := true }
    let dropped : SQLiteHistoryStore := { locked with rows := [], tableExists := false }
    match SQLiteHistoryStore.createHistoryTable dropped with
    | none => none
    | some (s2, r) => some ({ s2 with lockHeld := false }, r)

/-- Model of `SQLiteHistoryStore.Close` (idempotent). -/
def SQLiteHistoryStore.Close (s : SQLiteHistoryStore) :
    Option (SQLiteHistoryStore × Except String Unit) :=
  if s.lockHeld then none
  else some ({ s with closed := true }, .ok ())

/-- The store `NewSQLiteHistoryStore` hands back on success: open,
empty, with the `history` table created and the lock free. -/
def freshHistoryStore : SQLiteHistoryStore :=
  { rows := [], tableExists := true, closed := false, lockHeld := false }

/-- Fold `LogEvent` over a list of events, threading the store state.
Each list entry carries the `(genId, now)` pair its call would draw
from `uuid.New()`/`time.Now()`. The fold stops at the first call that
blocks (`none`) or errors. -/
def logEvents (s : SQLiteHistoryStore) : List (String × Nat × MemoryEvent) →
    Option (SQLiteHistoryStore × Except String Unit)
  | [] => some (s, .ok ())
  | (genId, now, e) :: rest =>
      match SQLiteHistoryStore.LogEvent s genId now e with
      | none => none
      | some (s1, .error msg) => some (s1, .error msg)
      | some (s1, .ok ()) => logEvents s1 rest

/-! ## Package `memory`: the pipeline stage workers (sources:
`processing_worker.go`, `embedding_worker.go`, `qdrant_worker.go`,
`dgraph_worker.go`).

Each `handle*Message` body is embedded as a function of its decoded
input plus explicit parameters for the outcome every external call
would have (NATS publishes, the OpenAI extraction/embedding calls, the
vector-store insert, the graph mutate). Publishing a marshalled value
is modelled as recording the typed value: marshalling of these structs
cannot fail (every field is a string, bool, slice or JSON-safe map).
The returned effect list holds the externally visible side effects in
program order — a publish whose transport call errors is not recorded,
and the handlers continue past such errors exactly where the source
only logs them. -/

/-- Model of `memory.ProcessedMemoryData`. -/
structure ProcessedMemoryData where
  base : BaseRequestInfo
  originalMessages : List Message
  processedText : String
  memoryId : String
  extractedFacts : List String

/-- Model of `memory.EmbeddingData` (float32 vectors as exact `Int`
lists; see the header). -/
structure EmbeddingData where
  base : BaseRequestInfo
  memoryId : String
  textToEmbed : String
  embedding : List Int
  processedText : String

/-- Model of `memory.Entity`. -/
structure Entity where
  id : String
  type : String
  name : String
deriving DecidableEq

/-- Model of `memory.Relation`. -/
structure Relation where
  sourceId : String
  targetId : String
  relationshipType : String
deriving DecidableEq

/-- Model of `memory.GraphStoreStorageData`. -/
structure GraphStoreStorageData where
  base : BaseRequestInfo
  memoryId : String
  textForGraph : String
  entities : List Entity
  relationships : List Relation

/-- A payload published by a stage worker, kept in typed form. -/
inductive StagePayload where
  | processed (d : ProcessedMemoryData)
  | embedding (d : EmbeddingData)
  | graph (g : GraphStoreStorageData)
  | history (e : MemoryEvent)

/-- An externally visible side effect of a stage handler, in program
order. -/
inductive StageEffect where
  | publish (topic : String) (payload : StagePayload)
  | vectorInsert (collection : String) (id : String) (embedding : List Int)
  | graphMutate (memoryId : String) (entities : List Entity) (relationships : List Relation)

/-- The concatenation-then-trim of `handleProcessMessage`: append each
message's content plus a space, then drop the trailing character when
non-empty. -/
def processedTextOf (msgs : List Message) : String :=
  let t := msgs.foldl (fun acc m => acc ++ m.content ++ " ") ""
  if t.length > 0 then t.dropRight 1 else t

/-- Model of `ProcessingWorker.handleProcessMessage` on its decoded
`AddMemoryRequest`. `factsRes` is the outcome the
`openai.ExtractFacts` call would have (consumed only when inference is
enabled and the client non-nil); `memoryID` and `eventID` are the two
`uuid.New().String()` values of the run; `now` the event timestamp;
`nextPubErr`/`histPubErr` the transport outcomes of the two publishes. -/
def handleProcessMessage (cfg : Config) (ncNil openaiNil : Bool)
    (factsRes : Except String String) (memoryID eventID : String) (now : Nat)
    (nextPubErr histPubErr : Option String) (req : AddMemoryRequest) :
    List StageEffect × Except String Unit :=
  let processedText := processedTextOf req.messages
  let extractedFacts : List String :=
    if cfg.enableInfer ∧ ¬ openaiNil then
      match factsRes with
      | .error _ => []
      | .ok s => [s]
    else []
  let processedData : ProcessedMemoryData :=
    ⟨req.base, req.messages, processedText, memoryID, extractedFacts⟩
  let pubNext : List StageEffect :=
    if ncNil then []
    else match nextPubErr with
      | some _ => []
      | none => [.publish cfg.topicMemoryEmbed (.processed processedData)]
  let historyEvent : MemoryEvent :=
    { eventId := eventID
      memoryId := memoryID
      eventType := "MEMORY_PROCESSED"
      timestamp := now
      userId := req.base.userId
      agentId := req.base.agentId
      runId := req.base.runId
      actorId := req.base.actorId
      oldMemory := ""
      newMemory := processedText
      searchQuery := ""
      details := some
        [("original_message_count", .num req.messages.length),
         ("processed_text_length", .num processedText.length),
         ("facts_extracted_count", .num extractedFacts.length)] }
  let pubHist : List StageEffect :=
    if ncNil then []
    else match histPubErr with
      | some _ => []
      | none => [.publish cfg.topicMemoryHistoryLog (.history historyEvent)]
  (pubNext ++ pubHist, .ok ())

/-- The fixed dummy embedding of `handleEmbedMessage` for a nil OpenAI
client: `[]float32{0.0, 0.0, 0.0}` (exactly representable). -/
def dummyEmbedding : List Int := [0, 0, 0]

/-- Model of `EmbeddingWorker.handleEmbedMessage` on its decoded
`ProcessedMemoryData`. `embedRes` is the outcome the
`openai.GetEmbedding` call would have (consumed only when the client is
non-nil); `vecPubErr`/`graphPubErr` the transport outcomes of the two
publishes. -/
def handleEmbedMessage (cfg : Config) (ncNil openaiNil : Bool)
    (embedRes : Except String (List Int)) (vecPubErr graphPubErr : Option String)
    (d : ProcessedMemoryData) : List StageEffect × Except String Unit :=
  match if openaiNil then .ok dummyEmbedding else embedRes with
  | .error e => ([], .error ("error getting embedding: " ++ e))
  | .ok embedding =>
      let embeddingData : EmbeddingData :=
        ⟨d.base, d.memoryId, d.processedText, embedding, d.processedText⟩
      let pubVec : List StageEffect :=
        if ncNil then []
        else match vecPubErr with
          | some _ => []
          | none => [.publish cfg.topicMemoryVectorStoreAdd (.embedding embeddingData)]
      let pubGraph : List StageEffect :=
        if cfg.enableGraphStore then
          let graphStoreData : GraphStoreStorageData :=
            ⟨d.base, d.memoryId, d.processedText, [], []⟩
          if ncNil then []
          else match graphPubErr with
            | some _ => []
            | none => [.publish cfg.topicMemoryGraphStoreAdd (.graph graphStoreData)]
        else []
      (pubVec ++ pubGraph, .ok ())

/-- The collection-name selection of `handleVectorStoreAddMessage`. -/
def qdrantCollectionName (cfg : Config) : String :=
  match cfg.vectorStoreConfig with
  | some vsc =>
      match vsc.config with
      | some (.qdrant q) => q.collectionName
      | _ => "default_collection"
  | none => "default_collection"

/-- Model of `QdrantWorker.handleVectorStoreAddMessage` on its decoded
`EmbeddingData`. `insertErr` is the outcome the
`vs.InsertVectors` call would have; `histPubErr` that of the history
publish. -/
def handleVectorStoreAddMessage (cfg : Config) (ncNil vsNil : Bool)
    (insertErr : Option String) (eventID : String) (now : Nat)
    (histPubErr : Option String) (d : EmbeddingData) :
    List StageEffect × Except String Unit :=
  if vsNil then ([], .error "VectorStore client is nil")
  else
    let collectionName := qdrantCollectionName cfg
    match insertErr with
    | some e => ([], .error ("error inserting vectors: " ++ e))
    | none =>
        let historyEvent : MemoryEvent :=
          { eventId := eventID
            memoryId := d.memoryId
            eventType := "VECTOR_STORE_ADD"
            timestamp := now
            userId := d.base.userId
            agentId := d.base.agentId
            runId := d.base.runId
            actorId := d.base.actorId
            oldMemory := ""
            newMemory := ""
            searchQuery := ""
            details := some
              [("collection_name", .str collectionName),
               ("vector_id", .str d.memoryId),
               ("embedding_dim", .num d.embedding.length)] }
        let pubHist : List StageEffect :=
          if ncNil then []
          else match histPubErr with
            | some _ => []
            | none => [.publish cfg.topicMemoryHistoryLog (.history historyEvent)]
        (.vectorInsert collectionName d.memoryId d.embedding :: pubHist, .ok ())

/-- Model of `DgraphWorker.handleGraphStoreAddMessage` on its decoded
`GraphStoreStorageData`. `extractRes` is the outcome the
`openai.ExtractGraphData` call would have (consumed only when the
entities or relationships are missing and the client is non-nil; the
prompt it would receive does not affect any modelled observable);
`mutateErr` that of `dg.Mutate`; `histPubErr` that of the history
publish. -/
def handleGraphStoreAddMessage (cfg : Config) (ncNil dgNil openaiNil : Bool)
    (extractRes : Except String (List Entity × List Relation))
    (mutateErr : Option String) (eventID : String) (now : Nat)
    (histPubErr : Option String) (g : GraphStoreStorageData) :
    List StageEffect × Except String Unit :=
  if dgNil then ([], .error "Dgraph client is nil")
  else
    let (entities, relationships) :=
      if (g.entities = [] ∨ g.relationships = []) ∧ ¬ openaiNil then
        match extractRes with
        | .error _ => (g.entities, g.relationships)
        | .ok (es, rs) => (es, rs)
      else (g.entities, g.relationships)
    let historyEvent : MemoryEvent :=
      { eventId := eventID
        memoryId := g.memoryId
        eventType := "GRAPH_STORE_ADD"
        timestamp := now
        userId := g.base.userId
        agentId := g.base.agentId
        runId := g.base.runId
        actorId := g.base.actorId
        oldMemory := ""
        newMemory := ""
        searchQuery := ""
        details := some
          [("entities_count", .num entities.length),
           ("relationships_count", .num relationships.length)] }
    let pubHist : List StageEffect :=
      if ncNil then []
      else match histPubErr with
        | some _ => []
        | none => [.publish cfg.topicMemoryHistoryLog (.history historyEvent)]
    if entities ≠ [] ∨ relationships ≠ [] then
      match mutateErr with
      | some e => ([], .error ("error mutating graph data: " ++ e))
      | none => (.graphMutate g.memoryId entities relationships :: pubHist, .ok ())
    else (pubHist, .ok ())

/-- A sample history row whose `details` column is SQL `NULL`, used to
evaluate the rehydration theorems on a concrete store. -/
def sampleRow : HistoryRow :=
  ⟨"e1", some "m", "T", 1, none, none, none, none, none, none, none, .sqlNull⟩

/-- A store holding exactly `sampleRow`, open and unlocked. -/
def sampleStore : SQLiteHistoryStore :=
  ⟨[sampleRow], true, false, false⟩

/-- A sample event for memory `m` at timestamp 1. -/
def sampleEvent1 : MemoryEvent :=
  ⟨"e1", "m", "CREATE", 1, "user-a", "", "", "", "", "", "", some [("k", .str "v")]⟩

/-- A sample event for memory `m` at timestamp 2. -/
def sampleEvent2 : MemoryEvent :=
  ⟨"e2", "m", "UPDATE", 2, "user-a", "", "", "", "", "new", "", none⟩

/-- A sample service configuration with the illustrative default topic
names of the specification. -/
def sampleConfig : Config :=
  { natsAddress := "nats://127.0.0.1:4222"
    openAIAPIKey := "sk-x"
    topicMemoryAddReceived := "memory.add.received"
    topicMemoryProcess := "memory.process"
    topicMemoryEmbed := "memory.embed"
    topicMemoryVectorStoreAdd := "memory.vectorstore.add"
    topicMemoryGraphStoreAdd := "memory.graphstore.add"
    topicMemoryHistoryLog := "memory.history.log"
    topicMemorySearch := "memory.search"
    topicMemoryGet := "memory.get"
    topicMemoryUpdate := "memory.update"
    topicMemoryDelete := "memory.delete"
    enableGraphStore := true
    enableInfer := false
    vectorStoreConfig := none
    customFactExtractionPrompt := "" }

/-- The one-message request of the specification's `Add` scenario:
`{user_id: "u1", messages: [{role: "user", content: "hello"}]}`. -/
def sampleAddRequest : AddMemoryRequest :=
  ⟨⟨"u1", "", "", "", []⟩, [⟨"user", "hello", ""⟩], false, "", ""⟩

/-! ## Theorems -/

/-- Reduction of the `Except` monad's bind on a success value. -/
@[simp] theorem gomemBindOk {α β : Type} (a : α) (f : α → Except String β) :
    (Except.ok a >>= f) = f a := rfl

/-- Reduction of the `Except` monad's bind on an error value. -/
@[simp] theorem gomemBindErr {α β : Type} (e : String) (f : α → Except String β) :
    ((Except.error e : Except String α) >>= f) = .error e := rfl

/-- **C3.** The claim is right and the code is wrong: `Reset` takes the
store's write lock and then calls `_createHistoryTable`, which tries to
take the same non-reentrant `sync.RWMutex` again, so `Reset` never
returns on any store — it can neither discard the history nor leave
the store usable, and the repository's own `TestResetHistoryStore`
(which expects `Reset` to succeed and the store to be usable after)
can never pass. -/
theorem C3_reset_never_returns (s : SQLiteHistoryStore) :
    SQLiteHistoryStore.Reset s = none := by
  unfold SQLiteHistoryStore.Reset SQLiteHistoryStore.createHistoryTable
  split
  · rfl
  · rfl

/-- **C7.** In each of the three stage handlers, once the stage's
primary side effect has succeeded (the next-stage publish for
processing, the vector insert for the vector-store stage, the graph
mutate for the graph-store stage), a failing publish of the
`MemoryEvent` to the history topic (`some histErr`) does not fail the
handler: it still returns success. -/
theorem C7_history_publish_failure_is_not_fatal
    (cfg : Config) (ncNil openaiNil : Bool)
    (factsRes : Except String String)
    (extractRes : Except String (List Entity × List Relation))
    (memoryID eventID : String) (now : Nat) (histErr : String)
    (req : AddMemoryRequest) (d : EmbeddingData) (g : GraphStoreStorageData) :
    (handleProcessMessage cfg ncNil openaiNil factsRes memoryID eventID now
        none (some histErr) req).2 = .ok () ∧
    (handleVectorStoreAddMessage cfg ncNil false none eventID now
        (some histErr) d).2 = .ok () ∧
    (handleGraphStoreAddMessage cfg ncNil false openaiNil extractRes none eventID now
        (some histErr) g).2 = .ok () := by
  refine ⟨rfl, rfl, ?_⟩
  simp only [handleGraphStoreAddMessage, Bool.false_eq_true, if_false]
  split <;> split <;> rfl

/-- **C9.** When the embedding stage's OpenAI client is nil, the
handler does not fail: it returns success and publishes to the
vector-store topic an `EmbeddingData` whose embedding is the fixed
dummy vector `[0.0, 0.0, 0.0]`. -/
theorem C9_nil_client_dummy_embedding (cfg : Config)
    (embedRes : Except String (List Int)) (graphPubErr : Option String)
    (d : ProcessedMemoryData) :
    (handleEmbedMessage cfg false true embedRes none graphPubErr d).2 = .ok () ∧
    StageEffect.publish cfg.topicMemoryVectorStoreAdd
        (.embedding ⟨d.base, d.memoryId, d.processedText, dummyEmbedding, d.processedText⟩)
      ∈ (handleEmbedMessage cfg false true embedRes none graphPubErr d).1 ∧
    dummyEmbedding = [0, 0, 0] := by
  refine ⟨rfl, ?_, rfl⟩
  simp [handleEmbedMessage]

/-- **C8.** With the transport accepting both publishes, the embedding
handler publishes a `GraphStoreStorageData` message to the graph-store
topic if and only if `EnableGraphStore` is set; when it is not set the
handler still returns success and still publishes the `EmbeddingData`
message to the vector-store topic. -/
theorem C8_graph_publish_iff_enabled (cfg : Config) (openaiNil : Bool)
    (v : List Int) (d : ProcessedMemoryData) :
    ((∃ g, StageEffect.publish cfg.topicMemoryGraphStoreAdd (.graph g)
        ∈ (handleEmbedMessage cfg false openaiNil (.ok v) none none d).1)
      ↔ cfg.enableGraphStore = true) ∧
    (handleEmbedMessage cfg false openaiNil (.ok v) none none d).2 = .ok () ∧
    (∃ ed, StageEffect.publish cfg.topicMemoryVectorStoreAdd (.embedding ed)
        ∈ (handleEmbedMessage cfg false openaiNil (.ok v) none none d).1) := by
  cases hoa : openaiNil <;>
    cases hg : cfg.enableGraphStore <;>
      simp [handleEmbedMessage, hg]

/-- **C4, counterexample.** Decoding a `GraphStoreConfig` payload whose
provider is set to `neo4j` but whose `config` field is absent does not
produce the claimed error `config field is missing for provider neo4j`:
it fails with the wrapped `json.Unmarshal` error on the nil raw
message. -/
theorem C4_counterexample :
    GraphStoreConfig.unmarshalJSON (Json.obj [("provider", Json.str "neo4j")]) =
      .error "failed to unmarshal neo4j config: unexpected end of JSON input" ∧
    "failed to unmarshal neo4j config: unexpected end of JSON input" ≠
      "config field is missing for provider neo4j" := by
  exact ⟨rfl, by decide⟩

/-- **C4, amended.** For a tagged payload whose `provider` is set
(non-empty) and whose `config` field is absent: `VectorStoreConfig`
decode fails with exactly `config field is missing for provider X`,
but `GraphStoreConfig` decode instead fails with
`failed to unmarshal X config: unexpected end of JSON input` for the
supported providers, and with `unknown graph store provider: X`
otherwise. -/
theorem C4_missing_config (p : String) (fs : List (String × Json))
    (hprov : jget fs "provider" = some (.str p)) (hp : p ≠ "")
    (hcfg : jget fs "config" = none) (hcp : jget fs "custom_prompt" = none) :
    VectorStoreConfig.unmarshalJSON (.obj fs) =
      .error ("config field is missing for provider " ++ p) ∧
    (p = "neo4j" →
      GraphStoreConfig.unmarshalJSON (.obj fs) =
        .error "failed to unmarshal neo4j config: unexpected end of JSON input") ∧
    (p = "memgraph" →
      GraphStoreConfig.unmarshalJSON (.obj fs) =
        .error "failed to unmarshal memgraph config: unexpected end of JSON input") ∧
    (p ≠ "neo4j" → p ≠ "memgraph" →
      GraphStoreConfig.unmarshalJSON (.obj fs) =
        .error ("unknown graph store provider: " ++ p)) := by
  refine ⟨?_, ?_, ?_, ?_⟩
  · simp [VectorStoreConfig.unmarshalJSON, jgetStr, jreadStr, hprov, hcfg, hp]
  · intro hpe; subst hpe
    simp [GraphStoreConfig.unmarshalJSON, jgetStr, jreadStr, hprov, hcp, hcfg, goUnmarshalRaw, wrapErr]
  · intro hpe; subst hpe
    simp [GraphStoreConfig.unmarshalJSON, jgetStr, jreadStr, hprov, hcp, hcfg, goUnmarshalRaw, wrapErr]
  · intro h1 h2
    simp only [GraphStoreConfig.unmarshalJSON, jgetStr, jreadStr, hprov, hcp, hcfg, gomemBindOk]

/-- **C4, witness.** The amended missing-config theorem applied at the
concrete payload `{"provider": "qdrant"}`. -/
theorem C4_missing_config_witness :
    jget [("provider", Json.str "qdrant")] "provider" = some (.str "qdrant") ∧
    ("qdrant" : String) ≠ "" ∧
    jget [("provider", Json.str "qdrant")] "config" = none ∧
    jget [("provider", Json.str "qdrant")] "custom_prompt" = none ∧
    VectorStoreConfig.unmarshalJSON (.obj [("provider", Json.str "qdrant")]) =
      .error ("config field is missing for provider " ++ "qdrant") :=
  ⟨rfl, by decide, rfl, rfl,
    (C4_missing_config "qdrant" [("provider", Json.str "qdrant")] rfl (by decide) rfl rfl).1⟩

/-- **C5, counterexample.** Decoding a `VectorStoreConfig` payload with
an unsupported provider does not produce the claimed error
`unsupported provider: X`: the message reads
`unsupported vector store provider: X` (and the graph-store analogue
reads `unknown graph store provider: X`). -/
theorem C5_counterexample :
    VectorStoreConfig.unmarshalJSON
        (Json.obj [("provider", Json.str "foo"), ("config", Json.obj [])]) =
      .error "unsupported vector store provider: foo" ∧
    "unsupported vector store provider: foo" ≠ "unsupported provider: foo" ∧
    GraphStoreConfig.unmarshalJSON
        (Json.obj [("provider", Json.str "foo"), ("config", Json.obj [])]) =
      .error "unknown graph store provider: foo" ∧
    "unknown graph store provider: foo" ≠ "unsupported provider: foo" := by
  exact ⟨rfl, by decide, rfl, by decide⟩

/-- **C5, amended.** Decoding a tagged payload whose provider names an
unsupported backend fails with an error that names the provider, but
the message is `unsupported vector store provider: X` for
`VectorStoreConfig` and `unknown graph store provider: X` for
`GraphStoreConfig` — not the claimed `unsupported provider: X`. -/
theorem C5_unsupported_provider (p : String) (fs : List (String × Json)) (j : Json)
    (hprov : jget fs "provider" = some (.str p))
    (hvec : p ≠ "" ∧ p ≠ "qdrant")
    (hgraph : p ≠ "neo4j" ∧ p ≠ "memgraph")
    (hcfg : jget fs "config" = some j) (hcp : jget fs "custom_prompt" = none) :
    VectorStoreConfig.unmarshalJSON (.obj fs) =
      .error ("unsupported vector store provider: " ++ p) ∧
    GraphStoreConfig.unmarshalJSON (.obj fs) =
      .error ("unknown graph store provider: " ++ p) := by
  obtain ⟨hp0, hpq⟩ := hvec
  obtain ⟨hpn, hpm⟩ := hgraph
  constructor
  · simp only [VectorStoreConfig.unmarshalJSON, jgetStr, jreadStr, hprov, hcfg, gomemBindOk]
    simp [hp0]
  · simp only [GraphStoreConfig.unmarshalJSON, jgetStr, jreadStr, hprov, hcp, hcfg, gomemBindOk]

/-- **C5, witness.** The amended unsupported-provider theorem applied
at the concrete payload `{"provider": "foo", "config": {}}`. -/
theorem C5_unsupported_provider_witness :
    jget [("provider", Json.str "foo"), ("config", Json.obj [])] "provider" =
      some (.str "foo") ∧
    (("foo" : String) ≠ "" ∧ ("foo" : String) ≠ "qdrant") ∧
    (("foo" : String) ≠ "neo4j" ∧ ("foo" : String) ≠ "memgraph") ∧
    jget [("provider", Json.str "foo"), ("config", Json.obj [])] "config" =
      some (Json.obj []) ∧
    jget [("provider", Json.str "foo"), ("config", Json.obj [])] "custom_prompt" = none ∧
    VectorStoreConfig.unmarshalJSON
        (.obj [("provider", Json.str "foo"), ("config", Json.obj [])]) =
      .error ("unsupported vector store provider: " ++ "foo") :=
  ⟨rfl, ⟨by decide, by decide⟩, ⟨by decide, by decide⟩, rfl, rfl,
    (C5_unsupported_provider "foo" [("provider", Json.str "foo"), ("config", Json.obj [])]
      (Json.obj []) rfl ⟨by decide, by decide⟩ ⟨by decide, by decide⟩ rfl rfl).1⟩

/-- **C6, counterexample.** For a `VectorStoreConfig` with
provider `qdrant` whose config value is of another provider's type,
`Validate` fails — but its message names only the provider and the
actual type: the expected type name `QdrantConfig` appears nowhere in
it, so the error does not name "both the expected and the actual
type". -/
theorem C6_counterexample :
    VectorStoreConfig.Validate ⟨"qdrant", some (.other "*graphs.Neo4jConfig")⟩ =
      .error "config for provider 'qdrant' is of unexpected type *graphs.Neo4jConfig" ∧
    strContains "config for provider 'qdrant' is of unexpected type *graphs.Neo4jConfig"
      "QdrantConfig" = false := by
  exact ⟨rfl, by decide⟩

/-- **C6, amended.** Decoding then re-validating a
`VectorStoreConfig`/`GraphStoreConfig` with provider `qdrant`/`neo4j`
and a matching concrete config succeeds. Swapping the concrete config
for another provider's type fails validation — also for configs
constructed programmatically without going through decode — with a
type-mismatch error; for `GraphStoreConfig` the message names both the
expected and the actual type, while for `VectorStoreConfig` it names
the provider and the actual type only. -/
theorem C6_type_agreement (m : MemgraphConfig) (n : Neo4jConfig) (t cp cp2 : String)
    (hm : memgraphFieldValidate "GraphStoreConfig.Config" m = .ok ())
    (hn : neo4jFieldValidate "GraphStoreConfig.Config" n = .ok ()) :
    VectorStoreConfig.unmarshalJSON (Json.obj [("provider", .str "qdrant"),
        ("config", .obj [("address", .str "http://localhost:6333"),
                         ("api_key", .str "secret"),
                         ("collection_name", .str "test_collection")])]) =
      .ok ⟨"qdrant", some (.qdrant ⟨"http://localhost:6333", "secret", "test_collection"⟩)⟩ ∧
    VectorStoreConfig.Validate
        ⟨"qdrant", some (.qdrant ⟨"http://localhost:6333", "secret", "test_collection"⟩)⟩ =
      .ok () ∧
    GraphStoreConfig.unmarshalJSON (Json.obj [("provider", .str "neo4j"),
        ("config", .obj [("url", .str "bolt://localhost:7687"),
                         ("username", .str "neo4j_user"),
                         ("password", .str "neo4j_password")])]) =
      .ok ⟨"neo4j",
           some (.neo4j ⟨"bolt://localhost:7687", "neo4j_user", "neo4j_password", "", false⟩),
           ""⟩ ∧
    GraphStoreConfig.Validate
        ⟨"neo4j",
         some (.neo4j ⟨"bolt://localhost:7687", "neo4j_user", "neo4j_password", "", false⟩),
         ""⟩ =
      .ok () ∧
    GraphStoreConfig.Validate ⟨"neo4j", some (.memgraph m), cp⟩ =
      .error "config for provider 'neo4j' must be of type *Neo4jConfig, got *graphs.MemgraphConfig" ∧
    strContains "config for provider 'neo4j' must be of type *Neo4jConfig, got *graphs.MemgraphConfig"
      "Neo4jConfig" = true ∧
    strContains "config for provider 'neo4j' must be of type *Neo4jConfig, got *graphs.MemgraphConfig"
      "MemgraphConfig" = true ∧
    GraphStoreConfig.Validate ⟨"memgraph", some (.neo4j n), cp2⟩ =
      .error "config for provider 'memgraph' must be of type *MemgraphConfig, got *graphs.Neo4jConfig" ∧
    VectorStoreConfig.Validate ⟨"qdrant", some (.other t)⟩ =
      .error ("config for provider 'qdrant' is of unexpected type " ++ t) := by
  refine ⟨rfl, rfl, rfl, rfl, ?_, by decide, by decide, ?_, rfl⟩
  · simp [GraphStoreConfig.Validate, graphStoreStructValidate, hm, gTypeName]
  · simp [GraphStoreConfig.Validate, graphStoreStructValidate, hn, gTypeName]

/-- **C6, witness.** The amended type-agreement theorem applied at
concrete configs. -/
theorem C6_type_agreement_witness :
    memgraphFieldValidate "GraphStoreConfig.Config" ⟨"bolt://h", "u", "p"⟩ = .ok () ∧
    GraphStoreConfig.Validate
        ⟨"neo4j", some (.memgraph ⟨"bolt://h", "u", "p"⟩), ""⟩ =
      .error "config for provider 'neo4j' must be of type *Neo4jConfig, got *graphs.MemgraphConfig" := by
  refine ⟨rfl, ?_⟩
  exact (C6_type_agreement ⟨"bolt://h", "u", "p"⟩ ⟨"bolt://h", "u", "p", "", false⟩
    "*T" "" "" rfl rfl).2.2.2.2.1

/-- Membership is preserved by the ordering insertion step. -/
theorem mem_insertByTs (r x : HistoryRow) (l : List HistoryRow) :
    x ∈ insertByTs r l ↔ x = r ∨ x ∈ l := by
  induction l with
  | nil => simp [insertByTs]
  | cons y ys ih =>
      simp only [insertByTs]
      split
      · simp [List.mem_cons]
      · simp only [List.mem_cons, ih]
        tauto

/-- Membership is preserved by the `ORDER BY` model. -/
theorem mem_orderByTs (x : HistoryRow) (l : List HistoryRow) :
    x ∈ orderByTs l ↔ x ∈ l := by
  induction l with
  | nil => simp [orderByTs]
  | cons r rs ih => simp [orderByTs, mem_insertByTs, ih]

/-- **C10, counterexample.** A `MemoryEvent` logged with a nil
`Details` map is stored with the blob `null`, which `GetHistory`'s
`json.Unmarshal` treats as a no-op — so the returned event's `Details`
map is nil, refuting the claim that every returned event has a non-nil
`Details` map. -/
theorem C10_counterexample :
    SQLiteHistoryStore.LogEvent freshHistoryStore "g" 5
        { eventId := "e1", memoryId := "m", eventType := "T", timestamp := 1,
          userId := "", agentId := "", runId := "", actorId := "",
          oldMemory := "", newMemory := "", searchQuery := "", details := none } =
      some
        ({ rows := [eventToRow "g" 5
            { eventId := "e1", memoryId := "m", eventType := "T", timestamp := 1,
              userId := "", agentId := "", runId := "", actorId := "",
              oldMemory := "", newMemory := "", searchQuery := "", details := none }],
           tableExists := true, closed := false, lockHeld := false }, .ok ()) ∧
    SQLiteHistoryStore.GetHistory
        { rows := [eventToRow "g" 5
            { eventId := "e1", memoryId := "m", eventType := "T", timestamp := 1,
              userId := "", agentId := "", runId := "", actorId := "",
              oldMemory := "", newMemory := "", searchQuery := "", details := none }],
          tableExists := true, closed := false, lockHeld := false } "m" =
      some (.ok [{ eventId := "e1", memoryId := "m", eventType := "T", timestamp := 1,
                   userId := "", agentId := "", runId := "", actorId := "",
                   oldMemory := "", newMemory := "", searchQuery := "",
                   details := none }]) := by
  exact ⟨rfl, rfl⟩

/-- **C10, amended.** Every `MemoryEvent` returned by `GetHistory`
comes from a selected row, and its `Details` map is: a fresh empty map
when the stored column was SQL `NULL` or the empty string; a map with
an `error` key describing the failure when the stored blob fails to
deserialize (the whole read still succeeds); the stored map itself for
a well-formed blob; but **nil** — not non-nil as claimed — when the
stored blob is the JSON literal `null`, which is exactly what logging
an event with a nil `Details` map stores. -/
theorem C10_details_rehydration (s : SQLiteHistoryStore) (M : String)
    (evs : List MemoryEvent) (h : s.GetHistory M = some (.ok evs))
    (e : MemoryEvent) (he : e ∈ evs) :
    ∃ r ∈ s.rows, r.memoryId = some M ∧ e = rehydrateRow r ∧
      ((r.details = .sqlNull ∨ r.details = .emptyText) → e.details = some []) ∧
      (∀ msg, r.details = .corruptText msg →
        e.details = some [("error", Json.str ("failed to unmarshal details: " ++ msg))]) ∧
      (∀ mm, r.details = .objText mm → e.details = some mm) ∧
      (r.details = .nullLiteral → e.details = none) := by
  simp only [SQLiteHistoryStore.GetHistory] at h
  split at h
  · exact absurd h (by simp)
  · split at h
    · exact absurd h (by simp)
    · split at h
      · simp at h
      · simp only [Option.some.injEq, Except.ok.injEq] at h
        subst h
        obtain ⟨r, hr, rfl⟩ := List.mem_map.mp he
        have hr2 : r ∈ s.rows.filter (fun r => r.memoryId = some M) :=
          (mem_orderByTs r _).mp hr
        have hmem := List.mem_of_mem_filter hr2
        have hprop := List.of_mem_filter hr2
        refine ⟨r, hmem, by simpa using hprop, rfl, ?_, ?_, ?_, ?_⟩
        · rintro (hd | hd) <;> simp [rehydrateRow, hd]
        · intro msg hd; simp [rehydrateRow, hd]
        · intro mm hd; simp [rehydrateRow, hd]
        · intro hd; simp [rehydrateRow, hd]

/-- **C10, witness.** The amended rehydration theorem applied to the
concrete one-row store `sampleStore`. -/
theorem C10_details_rehydration_witness :
    SQLiteHistoryStore.GetHistory sampleStore "m" = some (.ok [rehydrateRow sampleRow]) ∧
    rehydrateRow sampleRow ∈ [rehydrateRow sampleRow] ∧
    (∃ r ∈ sampleStore.rows, r.memoryId = some "m" ∧
      rehydrateRow sampleRow = rehydrateRow r ∧
      ((r.details = .sqlNull ∨ r.details = .emptyText) →
        (rehydrateRow sampleRow).details = some []) ∧
      (∀ msg, r.details = .corruptText msg →
        (rehydrateRow sampleRow).details =
          some [("error", Json.str ("failed to unmarshal details: " ++ msg))]) ∧
      (∀ mm, r.details = .objText mm → (rehydrateRow sampleRow).details = some mm) ∧
      (r.details = .nullLiteral → (rehydrateRow sampleRow).details = none)) :=
  ⟨rfl, List.mem_singleton.mpr rfl,
    C10_details_rehydration sampleStore "m" _ rfl _ (List.mem_singleton.mpr rfl)⟩

/-- An empty `sql.NullString` rehydrates to the empty string and a
non-empty one to itself. -/
theorem nullStr_getD (s : String) : (nullStr s).getD "" = s := by
  unfold nullStr; split <;> simp_all

/-- Rehydrating a row stored by `LogEvent` recovers the original event,
provided the event arrived with its `EventID` set and a non-zero
timestamp (so that no default was substituted). -/
theorem rehydrate_eventToRow (genId : String) (now : Nat) (e : MemoryEvent)
    (hid : e.eventId ≠ "") (hts : e.timestamp ≠ 0) :
    rehydrateRow (eventToRow genId now e) = e := by
  obtain ⟨eventId, memoryId, eventType, timestamp, userId, agentId, runId, actorId,
    oldMemory, newMemory, searchQuery, details⟩ := e
  cases details <;>
    simp_all [rehydrateRow, eventToRow, marshalDetails, nullStr_getD]

/-- Inserting below every element of a list prepends. -/
theorem insertByTs_of_forall_lt (r : HistoryRow) (l : List HistoryRow)
    (h : ∀ x ∈ l, r.timestamp < x.timestamp) : insertByTs r l = r :: l := by
  cases l with
  | nil => rfl
  | cons x xs => simp [insertByTs, h x (List.mem_cons_self x xs)]

/-- The `ORDER BY` model leaves a strictly increasing list unchanged. -/
theorem orderByTs_of_sorted (l : List HistoryRow)
    (h : l.Pairwise (fun a b => a.timestamp < b.timestamp)) : orderByTs l = l := by
  induction l with
  | nil => rfl
  | cons r rs ih =>
      rw [orderByTs, ih (List.pairwise_cons.mp h).2]
      exact insertByTs_of_forall_lt r rs (List.pairwise_cons.mp h).1

/-- Folding `LogEvent` over any event list on an open, unlocked store
with the table in place succeeds and appends the corresponding rows in
order. -/
theorem logEvents_ok (es : List MemoryEvent) :
    ∀ s : SQLiteHistoryStore, s.lockHeld = false → s.closed = false →
      s.tableExists = true →
    logEvents s (es.map fun e => ("", 0, e)) =
      some ({ s with rows := s.rows ++ es.map (eventToRow "" 0) }, .ok ()) := by
  induction es with
  | nil => intro s h1 h2 h3; simp [logEvents]
  | cons e rest ih =>
      intro s h1 h2 h3
      simp only [List.map_cons, logEvents, SQLiteHistoryStore.LogEvent, h1, h2, h3,
        Bool.false_eq_true, if_false, not_true_eq_false, ite_false, ite_true, not_true]
      rw [ih _ (by simp [h1]) (by simp [h2]) (by simp [h3])]
      simp [List.append_assoc]

/-- **C2, counterexample.** An event logged with an empty `memory_id`
is stored with a `NULL` `memory_id` column, and `GetHistory("")`
(`WHERE memory_id = ''` matches no `NULL` row) returns the empty list
rather than that event — so for `M = ""` `GetHistory(M)` does not
return the events logged for `M`. -/
theorem C2_counterexample :
    SQLiteHistoryStore.LogEvent freshHistoryStore "g" 5
        ⟨"e1", "", "T", 1, "", "", "", "", "", "", "", none⟩ =
      some
        ({ rows := [eventToRow "g" 5 ⟨"e1", "", "T", 1, "", "", "", "", "", "", "", none⟩],
           tableExists := true, closed := false, lockHeld := false }, .ok ()) ∧
    SQLiteHistoryStore.GetHistory
        { rows := [eventToRow "g" 5 ⟨"e1", "", "T", 1, "", "", "", "", "", "", "", none⟩],
          tableExists := true, closed := false, lockHeld := false } "" =
      some (.ok []) ∧
    (Except.ok ([] : List MemoryEvent) : Except String (List MemoryEvent)) ≠
      .ok [⟨"e1", "", "T", 1, "", "", "", "", "", "", "", none⟩] := by
  refine ⟨rfl, rfl, by simp⟩

/-- **C2, amended.** For every **non-empty** memory id `M`: logging any
events for `M` (with their ids set and non-zero, strictly increasing
timestamps) on a fresh store succeeds, `GetHistory(M)` then returns
exactly those events in that ascending order, and `GetHistory` of any
other memory id returns the empty sequence with no error. (For
`M = ""` the claim fails: the event is stored with a `NULL` column and
`GetHistory("")` returns nothing.) -/
theorem C2_history_order (M : String) (hM : M ≠ "") (es : List MemoryEvent)
    (hmem : ∀ e ∈ es, e.memoryId = M)
    (hid : ∀ e ∈ es, e.eventId ≠ "")
    (hts : ∀ e ∈ es, e.timestamp ≠ 0)
    (hinc : es.Pairwise fun a b => a.timestamp < b.timestamp) :
    ∃ st : SQLiteHistoryStore,
      logEvents freshHistoryStore (es.map fun e => ("", 0, e)) = some (st, .ok ()) ∧
      st.GetHistory M = some (.ok es) ∧
      ∀ M2, M2 ≠ M → st.GetHistory M2 = some (.ok []) := by
  refine ⟨_, logEvents_ok es freshHistoryStore rfl rfl rfl, ?_, ?_⟩
  · have hfilter : (es.map (eventToRow "" 0)).filter (fun r => r.memoryId = some M) =
        es.map (eventToRow "" 0) := by
      apply List.filter_eq_self.mpr
      intro r hr
      obtain ⟨e, he, rfl⟩ := List.mem_map.mp hr
      simp [eventToRow, nullStr, hmem e he, hM]
    have hsort : orderByTs (es.map (eventToRow "" 0)) = es.map (eventToRow "" 0) := by
      apply orderByTs_of_sorted
      rw [List.pairwise_map]
      refine hinc.imp_of_mem ?_
      intro a b ha hb hlt
      simpa [eventToRow, hts a ha, hts b hb] using hlt
    have hmap : List.map rehydrateRow (es.map (eventToRow "" 0)) = es := by
      rw [List.map_map]
      have : ∀ e ∈ es, (rehydrateRow ∘ eventToRow "" 0) e = id e := by
        intro e he
        simpa using rehydrate_eventToRow "" 0 e (hid e he) (hts e he)
      rw [List.map_congr_left this, List.map_id]
    simp [SQLiteHistoryStore.GetHistory, freshHistoryStore, hfilter, hsort, hmap]
  · intro M2 hM2
    have hfilter : (es.map (eventToRow "" 0)).filter (fun r => r.memoryId = some M2) =
        [] := by
      apply List.filter_eq_nil_iff.mpr
      intro r hr
      obtain ⟨e, he, rfl⟩ := List.mem_map.mp hr
      simp [eventToRow, nullStr, hmem e he, hM, Ne.symm hM2]
    simp [SQLiteHistoryStore.GetHistory, freshHistoryStore, hfilter, orderByTs]

/-- **C2, witness.** The amended history-order theorem applied to two
concrete events for memory `m` with timestamps 1 < 2. -/
theorem C2_history_order_witness :
    ("m" : String) ≠ "" ∧
    (∀ e ∈ [sampleEvent1, sampleEvent2], e.memoryId = "m") ∧
    (∀ e ∈ [sampleEvent1, sampleEvent2], e.eventId ≠ "") ∧
    (∀ e ∈ [sampleEvent1, sampleEvent2], e.timestamp ≠ 0) ∧
    ([sampleEvent1, sampleEvent2].Pairwise fun a b => a.timestamp < b.timestamp) ∧
    ∃ st : SQLiteHistoryStore,
      logEvents freshHistoryStore
          ([sampleEvent1, sampleEvent2].map fun e => ("", 0, e)) = some (st, .ok ()) ∧
      st.GetHistory "m" = some (.ok [sampleEvent1, sampleEvent2]) ∧
      ∀ M2, M2 ≠ "m" → st.GetHistory M2 = some (.ok []) := by
  refine ⟨by decide, ?_, ?_, ?_, ?_, ?_⟩
  · intro e he
    simp [sampleEvent1, sampleEvent2] at he
    rcases he with rfl | rfl <;> rfl
  · intro e he
    simp [sampleEvent1, sampleEvent2] at he
    rcases he with rfl | rfl <;> simp [sampleEvent1, sampleEvent2]
  · intro e he
    simp [sampleEvent1, sampleEvent2] at he
    rcases he with rfl | rfl <;> simp [sampleEvent1, sampleEvent2]
  · simp [sampleEvent1, sampleEvent2]
  · refine C2_history_order "m" (by decide) [sampleEvent1, sampleEvent2] ?_ ?_ ?_ ?_
    · intro e he
      simp [sampleEvent1, sampleEvent2] at he
      rcases he with rfl | rfl <;> rfl
    · intro e he
      simp [sampleEvent1, sampleEvent2] at he
      rcases he with rfl | rfl <;> simp [sampleEvent1, sampleEvent2]
    · intro e he
      simp [sampleEvent1, sampleEvent2] at he
      rcases he with rfl | rfl <;> simp [sampleEvent1, sampleEvent2]
    · simp [sampleEvent1, sampleEvent2]

/-- The per-message validator pass succeeds exactly on messages with a
role in `{user, assistant, system}` and non-empty content. -/
theorem messageFieldValidate_ok_iff (pfx : String) (m : Message) :
    messageFieldValidate pfx m = .ok () ↔
      (m.role = "user" ∨ m.role = "assistant" ∨ m.role = "system") ∧ m.content ≠ "" := by
  unfold messageFieldValidate
  split_ifs with h1 h2 h3 <;> simp_all
  tauto

/-- The `dive` walk succeeds exactly when every message is well formed,
independently of the starting index. -/
theorem messagesDiveValidate_ok_iff (i : Nat) (ms : List Message) :
    messagesDiveValidate i ms = .ok () ↔
      ∀ m ∈ ms, (m.role = "user" ∨ m.role = "assistant" ∨ m.role = "system") ∧
        m.content ≠ "" := by
  induction ms generalizing i with
  | nil => simp [messagesDiveValidate]
  | cons m rest ih =>
      simp only [messagesDiveValidate, List.mem_cons]
      cases hv : messageFieldValidate ("AddMemoryRequest.Messages[" ++ toString i ++ "]") m with
      | error e =>
          have := (messageFieldValidate_ok_iff
            ("AddMemoryRequest.Messages[" ++ toString i ++ "]") m).not.mp (by simp [hv])
          simp only [hv, gomemBindErr]
          constructor
          · intro h; exact absurd h (by simp)
          · intro h; exact absurd (h m (Or.inl rfl)) this
      | ok u =>
          cases u
          have hm := (messageFieldValidate_ok_iff
            ("AddMemoryRequest.Messages[" ++ toString i ++ "]") m).mp hv
          simp only [hv, gomemBindOk, ih (i + 1)]
          constructor
          · intro h x hx
            rcases hx with rfl | hx
            · exact hm
            · exact h x hx
          · intro h x hx
            exact h x (Or.inr hx)

/-- `AddMemoryRequest.Validate` succeeds exactly on well-formed
requests. -/
theorem validate_ok_iff_wellFormed (r : AddMemoryRequest) :
    AddMemoryRequest.Validate r = .ok () ↔ WellFormedAddRequest r := by
  unfold AddMemoryRequest.Validate WellFormedAddRequest
  split_ifs with h
  · simp [h]
  · simp [messagesDiveValidate_ok_iff, h]

/-- Decoding an encoded message recovers it. -/
theorem decode_encode_message (m : Message) : decodeMessage (encodeMessage m) = .ok m := by
  obtain ⟨role, content, name⟩ := m
  by_cases hn : name = "" <;>
    simp [encodeMessage, decodeMessage, optStrField, jgetStr, jreadStr, jget, hn]

/-- Decoding an encoded message list recovers it. -/
theorem decodeMessageList_encode (ms : List Message) :
    decodeMessageList (ms.map encodeMessage) = .ok ms := by
  induction ms with
  | nil => rfl
  | cons m rest ih => simp [decodeMessageList, decode_encode_message, ih]

/-- Looking a key up past an `omitempty` string segment. -/
theorem jget_optStr_append (k v key : String) (rest : List (String × Json)) :
    jget (optStrField k v ++ rest) key =
      if k = key ∧ v ≠ "" then some (.str v) else jget rest key := by
  by_cases hv : v = "" <;> by_cases hk : k = key <;>
    simp [optStrField, jget, hv, hk]

/-- Looking a key up past an omitted (empty) metadata segment. -/
theorem jget_optMeta_append_nil (key : String) (rest : List (String × Json)) :
    jget (optMetaField [] ++ rest) key = jget rest key := by
  simp [optMetaField]

/-- Looking a key up past a present metadata segment. -/
theorem jget_optMeta_append_cons (p : String × Json) (ps : List (String × Json))
    (key : String) (rest : List (String × Json)) :
    jget (optMetaField (p :: ps) ++ rest) key =
      if "metadata" = key then some (.obj (p :: ps)) else jget rest key := by
  simp [optMetaField, jget]

/-- Looking a key up in a bare `omitempty` string segment. -/
theorem jget_optStr (k v key : String) :
    jget (optStrField k v) key =
      if k = key ∧ v ≠ "" then some (.str v) else none := by
  by_cases hv : v = "" <;> by_cases hk : k = key <;>
    simp [optStrField, jget, hv, hk]

/-- Reading an `omitempty` string field recovers the value. -/
theorem jreadStr_ite (owner key v : String) :
    jreadStr owner key (if v = "" then none else some (.str v)) = .ok v := by
  split <;> simp_all [jreadStr]

/-- An `omitempty` round trip on a string is the identity. -/
theorem ite_ne_empty_self (v : String) : (if v ≠ "" then v else "") = v := by
  split <;> simp_all

/-- Round trip: `json.Unmarshal(json.Marshal(req))` recovers every
`AddMemoryRequest` (with nil/empty slices and maps identified, as in
the header conventions). -/
theorem decode_encode_addRequest (r : AddMemoryRequest) :
    decodeAddMemoryRequest (encodeAddMemoryRequest r) = .ok r := by
  obtain ⟨⟨u, a, rn, ac, md⟩, msgs, inf, mt, pr⟩ := r
  cases md <;>
    simp [encodeAddMemoryRequest, decodeAddMemoryRequest, jgetStr, jgetMeta,
      jgetMessages, jgetBool, jget_optStr_append, jget_optMeta_append_nil,
      jget_optMeta_append_cons, jget_optStr, jget, jreadStr_ite, jreadMeta, jreadBool,
      decodeMessageList_encode, ite_ne_empty_self, List.append_assoc]

/-- **C1.** With the NATS client present, the transport accepting the
publish, and `memoryID` the (always non-empty) string minted by
`uuid.New().String()`: `Add` on a well-formed request publishes exactly
one message, to the RECEIVED topic, whose payload decodes back to the
accepted request, and returns the non-empty identifier; on a request
with no messages, or any message with empty content or a role outside
`{user, assistant, system}`, `Add` returns an error and publishes
nothing. -/
theorem C1_add_contract (cfg : Config) (memoryID : String) (hid : memoryID ≠ "")
    (req : AddMemoryRequest) :
    (WellFormedAddRequest req →
      memoryServiceAdd cfg false none memoryID req =
        ([⟨cfg.topicMemoryAddReceived, encodeAddMemoryRequest req⟩], .ok memoryID) ∧
      decodeAddMemoryRequest (encodeAddMemoryRequest req) = .ok req ∧
      memoryID ≠ "") ∧
    (¬ WellFormedAddRequest req →
      ∃ emsg, memoryServiceAdd cfg false none memoryID req = ([], .error emsg)) := by
  constructor
  · intro hwf
    have hv := (validate_ok_iff_wellFormed req).mpr hwf
    exact ⟨by simp [memoryServiceAdd, hv], decode_encode_addRequest req, hid⟩
  · intro hwf
    have hv : AddMemoryRequest.Validate req ≠ .ok () :=
      fun h => hwf ((validate_ok_iff_wellFormed req).mp h)
    cases hval : AddMemoryRequest.Validate req with
    | ok u => cases u; exact absurd hval hv
    | error e =>
        exact ⟨"invalid AddMemoryRequest: " ++ e, by simp [memoryServiceAdd, hval]⟩

/-- **C1, witness.** The contract applied to the specification's `Add`
scenario request with a concrete minted identifier. -/
theorem C1_add_contract_witness :
    ("mem-1" : String) ≠ "" ∧
    ((WellFormedAddRequest sampleAddRequest →
      memoryServiceAdd sampleConfig false none "mem-1" sampleAddRequest =
        ([⟨sampleConfig.topicMemoryAddReceived, encodeAddMemoryRequest sampleAddRequest⟩],
         .ok "mem-1") ∧
      decodeAddMemoryRequest (encodeAddMemoryRequest sampleAddRequest) =
        .ok sampleAddRequest ∧
      ("mem-1" : String) ≠ "") ∧
    (¬ WellFormedAddRequest sampleAddRequest →
      ∃ emsg, memoryServiceAdd sampleConfig false none "mem-1" sampleAddRequest =
        ([], .error emsg))) :=
  ⟨by decide, C1_add_contract sampleConfig "mem-1" (by decide) sampleAddRequest⟩

end Gomem
